import Mathlib

/-!
Verification of the AtCoder4Rust contest-fetch pipeline.

Rust strings are modelled as lists of characters (`Str`); helper functions
(`wsTokens`, `splitSep`, `percentDecodeList`, `linesAux`) are structural
re-implementations of the Rust standard-library operations the source uses
(`split_whitespace`, `str::split` with a literal separator, percent
decoding, `BufRead::lines`), so that every definition evaluates by `decide`.
-/

/-- Model of a Rust string: a list of characters. -/
abbrev Str := List Char

/-- Model of `str::to_lowercase` (character-wise; accurate on ASCII input,
which is all the generator ever lowercases). -/
def lowercase (s : Str) : Str := s.map Char.toLower

/-- Byte-order comparison underlying `Vec::<String>::sort` in Rust:
lexicographic on characters (UTF-8 byte order agrees with code-point
order). -/
def strLe : Str → Str → Bool
  | [], _ => true
  | _ :: _, [] => false
  | a :: as2, b :: bs => if a = b then strLe as2 bs else decide (a < b)

/-- The ordering `strLe` as a proposition. -/
def StrLE (a b : Str) : Prop := strLe a b = true

instance : DecidableRel StrLE := fun a b => instDecidableEqBool (strLe a b) true

theorem strLe_total : ∀ a b : Str, strLe a b = true ∨ strLe b a = true
  | [], _ => Or.inl rfl
  | _ :: _, [] => Or.inr rfl
  | a :: as2, b :: bs => by
    by_cases hab : a = b
    · subst hab
      simpa [strLe] using strLe_total as2 bs
    · rcases lt_or_gt_of_ne hab with h | h
      · left
        simp [strLe, hab, h]
      · right
        have hba : b ≠ a := fun e => hab e.symm
        simp [strLe, hba, h]

theorem strLe_trans : ∀ a b c : Str,
    strLe a b = true → strLe b c = true → strLe a c = true
  | [], _, _, _, _ => rfl
  | _ :: _, [], _, h1, _ => by simp [strLe] at h1
  | _ :: _, _ :: _, [], _, h2 => by simp [strLe] at h2
  | a :: as2, b :: bs, c :: cs, h1, h2 => by
    by_cases hab : a = b <;> by_cases hbc : b = c
    · subst hab
      subst hbc
      simp only [strLe, if_pos rfl] at h1 h2 ⊢
      exact strLe_trans as2 bs cs h1 h2
    · subst hab
      simp only [strLe, if_pos rfl] at h1
      simp only [strLe, if_neg hbc] at h2 ⊢
      exact h2
    · subst hbc
      simp only [strLe, if_neg hab] at h1 ⊢
      exact h1
    · simp only [strLe, if_neg hab, decide_eq_true_eq] at h1
      simp only [strLe, if_neg hbc, decide_eq_true_eq] at h2
      have hac : a < c := lt_trans h1 h2
      simp [strLe, ne_of_lt hac, hac]

theorem strLe_antisymm : ∀ a b : Str,
    strLe a b = true → strLe b a = true → a = b
  | [], [], _, _ => rfl
  | [], _ :: _, _, h2 => by simp [strLe] at h2
  | _ :: _, [], h1, _ => by simp [strLe] at h1
  | a :: as2, b :: bs, h1, h2 => by
    by_cases hab : a = b
    · subst hab
      simp only [strLe, if_pos rfl] at h1 h2
      rw [strLe_antisymm as2 bs h1 h2]
    · have hba : b ≠ a := fun e => hab e.symm
      simp only [strLe, if_neg hab, decide_eq_true_eq] at h1
      simp only [strLe, if_neg hba, decide_eq_true_eq] at h2
      exact absurd h2 (not_lt_of_gt h1)

instance : IsTotal Str StrLE := ⟨strLe_total⟩

instance : IsTrans Str StrLE := ⟨strLe_trans⟩

instance : IsAntisymm Str StrLE := ⟨strLe_antisymm⟩

/-- Accumulator loop for `wsTokens`; `cur` holds the current token reversed. -/
def wsTokensAux (cur : Str) : Str → List Str
  | [] => if cur = [] then [] else [cur.reverse]
  | c :: rest =>
    if c.isWhitespace then
      if cur = [] then wsTokensAux [] rest else cur.reverse :: wsTokensAux [] rest
    else wsTokensAux (c :: cur) rest

/-- Model of Rust `str::split_whitespace`: maximal runs of non-whitespace. -/
def wsTokens (s : Str) : List Str := wsTokensAux [] s

/-- Splitting on a literal separator, with fuel to keep the recursion
structural; `cur` holds the current segment reversed. -/
def splitSepAux (sep : Str) : Nat → Str → Str → List Str
  | _, cur, [] => [cur.reverse]
  | 0, cur, s => [cur.reverse ++ s]
  | fuel + 1, cur, c :: rest =>
    if sep.isPrefixOf (c :: rest) then
      cur.reverse :: splitSepAux sep fuel [] (List.drop (sep.length - 1) rest)
    else
      splitSepAux sep fuel (c :: cur) rest

/-- Model of Rust `str::split(sep)` for a non-empty literal separator:
splits at the leftmost non-overlapping occurrences. -/
def splitSep (sep s : Str) : List Str := splitSepAux sep s.length [] s

/-- Value of a hexadecimal digit character (digits, upper-case letters at
code 65, lower-case letters at code 97). -/
def hexDigit (c : Char) : Option Nat :=
  let n := c.toNat
  if 48 ≤ n ∧ n ≤ 57 then some (n - 48)
  else if 65 ≤ n ∧ n ≤ 70 then some (n - 55)
  else if 97 ≤ n ∧ n ≤ 102 then some (n - 87)
  else none

/-- Model of `percent_encoding::percent_decode_str` followed by
`decode_utf8_lossy`, at character level: each `%XX` escape becomes the
character with that code; a `%` not followed by two hex digits is kept
literally.  (The byte-level UTF-8 reassembly of multi-byte escapes is not
modelled; no claim depends on it.) -/
def percentDecodeList : Str → Str
  | [] => []
  | '%' :: a :: b :: rest2 =>
    (match hexDigit a, hexDigit b with
     | some x, some y => Char.ofNat (16 * x + y) :: percentDecodeList rest2
     | _, _ => '%' :: percentDecodeList (a :: b :: rest2))
  | c :: rest => c :: percentDecodeList rest

/-- Model of the Rust error enum in `src/error.rs`.  `Http` carries the
numeric status code; the payload-less variants stand for the wrapped
foreign error values, which no claim inspects. -/
inductive Error where
  | Http (status : Nat)
  | Invalid (msg : Str)
  | Io
  | Reqwest
  | Url
deriving DecidableEq

instance exceptDecEq {ε α : Type} [DecidableEq ε] [DecidableEq α] :
    DecidableEq (Except ε α) := fun a b =>
  match a, b with
  | .ok x, .ok y =>
    if h : x = y then .isTrue (h ▸ rfl) else .isFalse (fun c => h (Except.ok.inj c))
  | .error x, .error y =>
    if h : x = y then .isTrue (h ▸ rfl) else .isFalse (fun c => h (Except.error.inj c))
  | .ok _, .error _ => .isFalse nofun
  | .error _, .ok _ => .isFalse nofun

/-! ## Sample extractor (`parse_samples`, src/src/main.rs lines 60-93)

A task page is modelled by the part elements matched by the selector
`#task-statement .part`, in document order.  Each part carries the `h3`
elements it contains (each as its list of descendant text nodes, in
document order) and the inner HTML of each `pre` element it contains. -/

/-- An `h3` element: its descendant text nodes in document order. -/
structure H3 where
  texts : List Str
deriving DecidableEq

/-- A part element under `#task-statement`: its `h3` elements and the inner
HTML of its `pre` elements, in document order. -/
structure StatementPart where
  h3s : List H3
  pres : List Str
deriving DecidableEq

/-- A task-detail page: the `#task-statement .part` elements in document
order. -/
abbrev TaskPage := List StatementPart

/-- One `h3` of a part, as classified by the closure in `parse_samples`:
the first text node starting with 入力例 (or, failing that, 出力例) yields
the second whitespace-separated token of that text as the example index,
together with the input/output kind. -/
def classify_h3 (h3 : H3) : Option (Str × Bool) :=
  match h3.texts.find? (fun t => List.isPrefixOf "入力例".toList t) with
  | some t => ((wsTokens t).get? 1).map (fun index => (index, true))
  | none =>
    match h3.texts.find? (fun t => List.isPrefixOf "出力例".toList t) with
    | some t => ((wsTokens t).get? 1).map (fun index => (index, false))
    | none => none

/-- The block a part contributes: the first classifiable `h3` gives the
index and kind, the first `pre` gives the text; parts lacking either are
dropped (the two `filter_map`s in `parse_samples`). -/
def part_block (part : StatementPart) : Option (Str × Str × Bool) :=
  ((part.h3s.filterMap classify_h3).head?).bind (fun ib =>
    part.pres.head?.map (fun pre => (pre, ib.1, ib.2)))

/-- Model of `parse_samples` (src/src/main.rs lines 60-93): classify every
part, partition the blocks into inputs and outputs preserving document
order, and zip the two text sequences. -/
def parse_samples (page : TaskPage) : Except Error (List (Str × Str)) :=
  let blocks := page.filterMap part_block
  let parts := blocks.partition (fun b => b.2.2)
  Except.ok ((parts.1.map (fun b => b.1)).zip (parts.2.map (fun b => b.1)))

/-- All matched example blocks of a page, in document order. -/
def exampleBlocks (page : TaskPage) : List (Str × Str × Bool) :=
  page.filterMap part_block

/-- The input example block texts of a page, in document order. -/
def inputBlocks (page : TaskPage) : List Str :=
  ((exampleBlocks page).filter (fun b => b.2.2)).map (fun b => b.1)

/-- The output example block texts of a page, in document order. -/
def outputBlocks (page : TaskPage) : List Str :=
  ((exampleBlocks page).filter (fun b => !b.2.2)).map (fun b => b.1)

theorem zip_get?_eq {α β : Type} (l : List α) (l' : List β) (k : Nat) :
    (l.zip l').get? k =
      (l.get? k).bind (fun a => (l'.get? k).map (fun b => (a, b))) := by
  induction l generalizing l' k with
  | nil => simp
  | cons a t ih =>
    cases l' with
    | nil => simp
    | cons b t' =>
      cases k with
      | zero => simp
      | succ n => simpa using ih t' n

theorem parse_samples_eq_zip (page : TaskPage) :
    parse_samples page = Except.ok ((inputBlocks page).zip (outputBlocks page)) := by
  simp only [parse_samples, inputBlocks, outputBlocks, exampleBlocks,
    List.partition_eq_filter_filter]
  rfl

/-! ## CSRF extraction (`get_csrf_token`, src/src/main.rs lines 22-44)

The login response is modelled by the list of its `Set-Cookie` header
values (those whose bytes survive `HeaderValue::to_str`, which the source
filters on). -/

/-- The candidate cookie fragments considered by `get_csrf_token`: values
starting with `REVEL_SESSION`, each split on `%00`, keeping the fragments
that start with `csrf_token` (before decoding), flattened in order. -/
def session_fragments (setCookies : List Str) : List Str :=
  (setCookies.filter (fun v => List.isPrefixOf "REVEL_SESSION".toList v)).flatMap
    (fun v => (splitSep "%00".toList v).filter
      (fun f => List.isPrefixOf "csrf_token".toList f))

/-- What `get_csrf_token` extracts from one fragment: percent-decode it,
split on `:` and take element 1 (Rust `token.split(":").nth(1)`). -/
def fragment_token (f : Str) : Option Str :=
  (splitSep ":".toList (percentDecodeList f)).get? 1

/-- Model of `get_csrf_token` (src/src/main.rs lines 22-44). -/
def get_csrf_token (setCookies : List Str) : Except Error Str :=
  match ((session_fragments setCookies).filterMap fragment_token).head? with
  | some t => Except.ok t
  | none => Except.error (Error.Invalid "Could not find csrf_token".toList)

/-- Everything after the first `:` of a string, if any. -/
def afterFirstColon : Str → Option Str
  | [] => none
  | c :: rest => if c = ':' then some rest else afterFirstColon rest

/-- The CSRF extractor as claim C2 words it: for each decoded fragment keep
the entire substring after the first colon, first hit wins. -/
def get_csrf_token_claimC2 (setCookies : List Str) : Except Error Str :=
  match ((session_fragments setCookies).filterMap
      (fun f => afterFirstColon (percentDecodeList f))).head? with
  | some t => Except.ok t
  | none => Except.error (Error.Invalid "Could not find csrf_token".toList)

/-- First fragment of the list that yields a token under `fragment_token`,
written as a direct recursion (the amended reading of claim C2). -/
def csrf_first_field : List Str → Option Str
  | [] => none
  | f :: rest =>
    match fragment_token f with
    | some t => some t
    | none => csrf_first_field rest

theorem filterMap_head?_eq_first {α β : Type} (g : α → Option β) :
    ∀ l : List α, (l.filterMap g).head? =
      (match l with
       | [] => none
       | f :: rest => match g f with
         | some t => some t
         | none => (rest.filterMap g).head?) := by
  intro l
  cases l with
  | nil => rfl
  | cons f rest =>
    cases h : g f with
    | none => simp [List.filterMap_cons, h]
    | some t => simp [List.filterMap_cons, h]

theorem csrf_first_field_eq_filterMap (l : List Str) :
    csrf_first_field l = (l.filterMap fragment_token).head? := by
  induction l with
  | nil => rfl
  | cons f rest ih =>
    rw [filterMap_head?_eq_first]
    cases h : fragment_token f with
    | none => simpa [csrf_first_field, h] using ih
    | some t => simp [csrf_first_field, h]

/-! ## Login verification (src/src/main.rs lines 254-263)

After the login POST, the cookie jar is the list of `Cookie` header
values; the run continues only when some value contains the username. -/

/-- Model of the login-verification step in `main`: succeed with the jar
when some cookie value contains the username as a substring, otherwise the
typed failure `Invalid("Failed to login")`. -/
def verify_login (cookies : List Str) (username : Str) : Except Error (List Str) :=
  if cookies.any (fun c => decide (username <:+: c)) then Except.ok cookies
  else Except.error (Error.Invalid "Failed to login".toList)

/-! ## Cookie store (`load_cookies` / `save_cookies`, src/src/main.rs lines 152-173) -/

/-- Model of the byte test in `http::HeaderValue::to_str`: visible ASCII or
tab. -/
def toStrOk (c : Char) : Bool :=
  decide ((32 ≤ c.toNat ∧ c.toNat < 127) ∨ c.toNat = 9)

/-- Model of the byte test in `http::HeaderValue::from_str`: anything at or
above space except DEL, or tab (characters beyond ASCII are multi-byte
sequences of such bytes). -/
def fromStrOk (c : Char) : Bool :=
  decide ((32 ≤ c.toNat ∧ c.toNat ≠ 127) ∨ c.toNat = 9)

/-- Undo the accumulator's reversal, dropping one trailing `'\r'` (i.e. a
leading one here, since the accumulator is reversed). -/
def stripCRrev (cur : Str) : Str :=
  match cur with
  | c :: cur2 => if c = '\r' then cur2.reverse else (c :: cur2).reverse
  | [] => []

/-- Accumulator loop modelling `BufRead::lines`: split at `'\n'`, stripping
one `'\r'` before each `'\n'`; a last line without a newline is kept as
is; `cur` holds the current line reversed. -/
def linesAux (cur : Str) : Str → List Str
  | [] => if cur = [] then [] else [cur.reverse]
  | c :: rest =>
    if c = '\n' then stripCRrev cur :: linesAux [] rest
    else linesAux (c :: cur) rest

/-- Model of `load_cookies` (src/src/main.rs lines 152-160): read the file
line by line, keeping the lines accepted by `HeaderValue::from_str`. -/
def load_cookies (content : Str) : List Str :=
  (linesAux [] content).filter (fun l => l.all fromStrOk)

/-- Model of `save_cookies` (src/src/main.rs lines 162-173): the header
values that survive `to_str`, joined by newlines. -/
def save_cookies (jar : List Str) : Str :=
  List.intercalate ['\n'] (jar.filter (fun v => v.all toStrOk))

/-! ## Task index scraper (`get_samples`, src/src/main.rs lines 101-110)

A row of the contest task table is modelled by its `td` children (in
document order), each carrying its `a` descendants (in document order).
An anchor records its inner HTML, its inner text (the concatenated text
nodes, which `scraper` exposes separately from the inner HTML) and its
optional `href` attribute. -/

/-- An `a` element of a table row. -/
structure Anchor where
  innerHtml : Str
  innerText : Str
  href : Option Str
deriving DecidableEq

/-- A `td` element: its `a` descendants in document order. -/
structure Td where
  anchors : List Anchor
deriving DecidableEq

/-- A `tbody > tr` element: its `td` children in document order. -/
structure Row where
  tds : List Td
deriving DecidableEq

/-- The anchor `get_samples` picks in a row: the first `a` matched by the
selector `td a`, i.e. the first anchor under any `td` in document order. -/
def row_anchor (r : Row) : Option Anchor :=
  (r.tds.flatMap (fun td => td.anchors)).head?

/-- Model of the scraping part of `get_samples`: each matched row yields
`(inner_html, href)`; `a.value().attr("href").unwrap()` panics when the
anchor has no `href`, modelled by `none`. -/
def scrape_task_entries (rows : List Row) : Option (List (Str × Str)) :=
  (rows.filterMap row_anchor).mapM
    (fun a => a.href.map (fun h => (a.innerHtml, h)))

/-- The anchor selection as claim C7 words it: the first `a` inside the
first `td` of the row. -/
def row_anchor_claimC7 (r : Row) : Option Anchor :=
  r.tds.head?.bind (fun td => td.anchors.head?)

/-- The scraper as claim C7 words it: rows whose first `td` has no anchor
are skipped, and the display name is the anchor's inner text. -/
def scrape_task_entries_claimC7 (rows : List Row) : List (Str × Str) :=
  (rows.filterMap row_anchor_claimC7).filterMap
    (fun a => a.href.map (fun h => (a.innerText, h)))

/-- First anchor under the `td` children of a row, written as a direct
recursion over the `td` list (the amended reading of claim C7). -/
def firstAnchorTds : List Td → Option Anchor
  | [] => none
  | td :: rest =>
    match td.anchors with
    | a :: _ => some a
    | [] => firstAnchorTds rest

/-- The scraper as the amended claim C7 words it: walk the rows in order,
skip rows with no anchor under a `td`, record `(inner_html, href)`, and
fail (panic) on an anchor without `href`. -/
def scrape_amendedC7 : List Row → Option (List (Str × Str))
  | [] => some []
  | r :: rest =>
    match firstAnchorTds r.tds with
    | none => scrape_amendedC7 rest
    | some a =>
      match a.href with
      | none => none
      | some h => (scrape_amendedC7 rest).map (fun es => (a.innerHtml, h) :: es)

theorem row_anchor_eq_firstAnchorTds (r : Row) :
    row_anchor r = firstAnchorTds r.tds := by
  show (r.tds.flatMap (fun td => td.anchors)).head? = firstAnchorTds r.tds
  induction r.tds with
  | nil => rfl
  | cons td rest ih =>
    cases h : td.anchors with
    | nil => simpa [List.flatMap_cons, firstAnchorTds, h] using ih
    | cons a t => simp [List.flatMap_cons, firstAnchorTds, h]

/-! ## Project generator (src/src/generator.rs, and the generator phase of
`main`, src/src/main.rs lines 294-358) -/

/-- Model of `Vec::<String>::sort` (stable; on the linear byte order the
sorted permutation is unique, so any correct sort denotes the same
function). -/
def sortedTasks (task_names : List Str) : List Str :=
  List.insertionSort StrLE task_names

/-- The `mod {task};` lines of the dispatcher, one per sorted slug
(generator.rs lines 27-30). -/
def modLines (sorted : List Str) : List Str :=
  sorted.map (fun t => "mod ".toList ++ t ++ ";\n".toList)

/-- The match arms of the dispatcher, one per sorted slug (generator.rs
lines 31-35). -/
def matchArms (sorted : List Str) : List Str :=
  sorted.map (fun t =>
    "        \x22".toList ++ t ++ "\x22 => ".toList ++ t ++ "::main(),".toList)

/-- Model of `generate_main_rs` (src/src/generator.rs lines 24-52). -/
def generate_main_rs (task_names : List Str) : Str :=
  let sorted := sortedTasks task_names
  let mods := (modLines sorted).flatten
  let arms := List.intercalate "\n".toList (matchArms sorted)
  mods
    ++ "\nfn main() \x7b\n    let mut args = std::env::args();\n    if args.len() < 2 \x7b\n        return;\n    \x7d\n    match args.nth(1).unwrap().as_str() \x7b\n".toList
    ++ arms
    ++ "\n        _ => \x7b\x7d,\n    \x7d\n\x7d\n".toList

/-- Model of `generate_cargo_toml` (src/src/generator.rs lines 2-21). -/
def generate_cargo_toml (project_name : Str) (author : Option Str)
    (dependencies : Str) : Str :=
  "[package]\nname = \x22".toList ++ project_name
    ++ "\x22\nversion = \x220.1.0\x22\nauthors = [\x22".toList ++ author.getD []
    ++ "\x22]\nedition = \x222018\x22\n\n[[bin]]\nname = \x22".toList ++ project_name
    ++ "\x22\npath = \x22src/main.rs\x22\n\n[dependencies]\n".toList ++ dependencies
    ++ "\n".toList

/-- Model of `generate_sample` (src/src/generator.rs lines 55-87). -/
def generate_sample (project_name module_name sample_name input output : Str) : Str :=
  "    #[test]\n    fn ".toList ++ sample_name
    ++ "() \x7b\n        let test_dir = TestDir::new(\x22./".toList ++ project_name
    ++ "\x22, \x22\x22);\n        let output = test_dir\n            .cmd()\n            .arg(\x22".toList
    ++ module_name
    ++ "\x22)\n            .output_with_stdin(r#\x22".toList ++ input
    ++ "\x22#)\n            .expect_success();\n        let stderr = output.stderr_str();\n        if !stderr.is_empty() \x7b\n            eprintln!(\x22=== stderr ===\x22);\n            eprint!(\x22\x7b\x7d\x22, stderr);\n            eprintln!(\x22==============\x22);\n        \x7d\n        assert_eq!(output.stdout_str(), r#\x22".toList
    ++ output
    ++ "\x22#);\n        assert!(stderr.is_empty(), \x22stderr is not empty\x22);\n    \x7d\n".toList

/-- Model of `generate_test_cases` (src/src/generator.rs lines 90-118). -/
def generate_test_cases (project_name module_name : Str)
    (samples : List (Str × Str)) : Str :=
  let body := (samples.enum.map (fun p =>
    generate_sample project_name module_name
      ("sample_".toList ++ Nat.toDigits 10 (p.1 + 1)) p.2.1 p.2.2)).flatten
  "#[cfg(test)]\nmod tests \x7b\n    use cli_test_dir::*;\n\n".toList
    ++ body ++ "\x7d\n".toList

/-- A file emitted by the generator phase of `main`: path (relative to the
project root's parent) and content. -/
structure FsWrite where
  path : Str
  content : Str
deriving DecidableEq

/-- Per-task file name used by `main` (src/src/main.rs line 346):
`key.to_lowercase() + ".rs"`. -/
def taskFilePath (key : Str) : Str := lowercase key ++ ".rs".toList

/-- Model of the generator phase of `main` (src/src/main.rs lines
294-358): refuse if the output root already exists, otherwise emit the
manifest, the dispatcher and one file per task.  `samples` is the scraped
task map as an association list in iteration order.  (main.rs line 352
passes the lowercased key to `generate_test_cases`; its `project_name` and
`module_name` parameters are both modelled with that single argument.) -/
def generate_project (rootExists : Bool) (contest_id : Str)
    (username : Option Str) (dependencies template : Str)
    (samples : List (Str × List (Str × Str))) : List FsWrite × Option Error :=
  if rootExists then
    ([], some (Error.Invalid (contest_id ++ " is already exists".toList)))
  else
    let sample_keys := samples.map (fun kv => lowercase kv.1)
    (⟨contest_id ++ "/Cargo.toml".toList,
        generate_cargo_toml contest_id username dependencies⟩ ::
      ⟨contest_id ++ "/src/main.rs".toList, generate_main_rs sample_keys⟩ ::
      samples.map (fun kv =>
        ⟨contest_id ++ "/src/".toList ++ taskFilePath kv.1,
          template ++ '\n' ::
            generate_test_cases (lowercase kv.1) (lowercase kv.1) kv.2⟩),
      none)

/-! ## Claim C1 / C6: sample pairing -/

/-- Claim C1: for every task-detail page whose parts yield `m` input and
`n` output example blocks, `parse_samples` returns `Except.ok` of exactly
`min m n` samples, the k-th sample pairing the k-th input block with the
k-th output block in document order, and a page with no matching blocks
yields the empty list rather than an error. -/
theorem parse_samples_min_pairing (page : TaskPage) :
    ∃ l, parse_samples page = Except.ok l ∧
      l.length = min (inputBlocks page).length (outputBlocks page).length ∧
      (∀ k : Nat, l.get? k = ((inputBlocks page).get? k).bind
        (fun i => ((outputBlocks page).get? k).map (fun o => (i, o)))) ∧
      (exampleBlocks page = [] → l = []) := by
  refine ⟨(inputBlocks page).zip (outputBlocks page),
    parse_samples_eq_zip page, ?_, ?_, ?_⟩
  · simp
  · intro k
    exact zip_get?_eq (inputBlocks page) (outputBlocks page) k
  · intro h
    simp [inputBlocks, h]

/-- A page with three input examples and two output examples (the
unbalanced-samples scenario). -/
def demoPage : TaskPage :=
  [⟨[⟨["入力例 1".toList]⟩], ["1 2\n".toList]⟩,
   ⟨[⟨["出力例 1".toList]⟩], ["3\n".toList]⟩,
   ⟨[⟨["入力例 2".toList]⟩], ["4 5\n".toList]⟩,
   ⟨[⟨["出力例 2".toList]⟩], ["9\n".toList]⟩,
   ⟨[⟨["入力例 3".toList]⟩], ["6 7\n".toList]⟩]

/-- Witness for claim C1, instantiated at `demoPage`. -/
theorem parse_samples_min_pairing_witness :
    ∃ l, parse_samples demoPage = Except.ok l ∧
      l.length = min (inputBlocks demoPage).length (outputBlocks demoPage).length ∧
      (∀ k : Nat, l.get? k = ((inputBlocks demoPage).get? k).bind
        (fun i => ((outputBlocks demoPage).get? k).map (fun o => (i, o)))) ∧
      (exampleBlocks demoPage = [] → l = []) :=
  parse_samples_min_pairing demoPage

/-- A page whose numbered input blocks appear out of numeric order:
input example 2 precedes input example 1, while the outputs appear in
numeric order. -/
def c6Page : TaskPage :=
  [⟨[⟨["入力例 2".toList]⟩], ["I2".toList]⟩,
   ⟨[⟨["入力例 1".toList]⟩], ["I1".toList]⟩,
   ⟨[⟨["出力例 1".toList]⟩], ["O1".toList]⟩,
   ⟨[⟨["出力例 2".toList]⟩], ["O2".toList]⟩]

/-- Claim C6 counterexample: on `c6Page` the extractor pairs the block
numbered 2 with the block numbered 1 (document order), not equal numbers
with equal numbers as the claim states. -/
theorem parse_samples_ignores_printed_numbers :
    exampleBlocks c6Page =
        [("I2".toList, "2".toList, true), ("I1".toList, "1".toList, true),
         ("O1".toList, "1".toList, false), ("O2".toList, "2".toList, false)] ∧
      parse_samples c6Page =
        Except.ok [("I2".toList, "O1".toList), ("I1".toList, "O2".toList)] ∧
      parse_samples c6Page ≠
        Except.ok [("I1".toList, "O1".toList), ("I2".toList, "O2".toList)] := by
  decide

/-- Claim C6 (amended): the k-th sample pairs the k-th input block with the
k-th output block in document order of the page; the example numbers
printed on the page are extracted but never used for pairing. -/
theorem parse_samples_document_order_pairing (page : TaskPage) :
    parse_samples page = Except.ok ((inputBlocks page).zip (outputBlocks page)) :=
  parse_samples_eq_zip page

/-! ## Claim C2: CSRF extraction -/

/-- A login response whose decoded `csrf_token` fragment contains a second
colon. -/
def c2Cookies : List Str := ["REVEL_SESSION=s%00csrf_token:ab:cd%00x".toList]

/-- Claim C2 counterexample: the code returns the field between the first
and second colon (`split(":").nth(1)`), not the entire substring after the
first colon as the claim states. -/
theorem csrf_token_not_suffix_after_colon :
    get_csrf_token c2Cookies = Except.ok "ab".toList ∧
      get_csrf_token_claimC2 c2Cookies = Except.ok "ab:cd".toList ∧
      get_csrf_token c2Cookies ≠ get_csrf_token_claimC2 c2Cookies := by
  decide

/-- Claim C2 (amended): `get_csrf_token` filters the `Set-Cookie` values
whose name begins with `REVEL_SESSION`, splits each on `%00`, keeps the
fragments beginning with `csrf_token`, percent-decodes each, and for the
first fragment whose decoded form has at least two `:`-separated fields
returns the field between the first and second colon (fragments with no
such field are passed over); if no fragment qualifies it fails with
`Invalid("Could not find csrf_token")`. -/
theorem get_csrf_token_second_field (setCookies : List Str) :
    get_csrf_token setCookies =
      match csrf_first_field (session_fragments setCookies) with
      | some t => Except.ok t
      | none => Except.error (Error.Invalid "Could not find csrf_token".toList) := by
  rw [csrf_first_field_eq_filterMap]
  rfl

/-! ## Claim C3: login verification -/

/-- Claim C3: after the login POST the run fails with
`Invalid("Failed to login")` if and only if no cookie header value in the
jar contains the supplied username as a substring (in particular, a 200
response whose cookies lack the username is rejected). -/
theorem login_failure_iff (cookies : List Str) (username : Str) :
    verify_login cookies username =
        Except.error (Error.Invalid "Failed to login".toList) ↔
      ∀ c ∈ cookies, ¬ username <:+: c := by
  unfold verify_login
  split
  · next h =>
    simp only [List.any_eq_true, decide_eq_true_eq] at h
    obtain ⟨c, hc, hinf⟩ := h
    constructor
    · intro he
      exact absurd he (by simp)
    · intro hall
      exact absurd hinf (hall c hc)
  · next h =>
    simp only [List.any_eq_true, decide_eq_true_eq, not_exists] at h
    constructor
    · intro _ c hc hinf
      exact h c ⟨hc, hinf⟩
    · intro _
      rfl

/-- Witness for claim C3: a jar from a 200 response that lacks the
username is rejected. -/
theorem login_failure_iff_witness :
    verify_login ["REVEL_SESSION=abc123".toList] "alice".toList =
      Except.error (Error.Invalid "Failed to login".toList) :=
  (login_failure_iff ["REVEL_SESSION=abc123".toList] "alice".toList).mpr (by decide)

/-! ## Claim C4: refusal on pre-existing output directory -/

/-- Claim C4: when the output directory `<root>/<contest-id>` already
exists, the generator phase fails with `Invalid("<contest-id> is already
exists")` and emits zero file writes. -/
theorem generate_project_refusal (rootExists : Bool) (contest_id : Str)
    (username : Option Str) (dependencies template : Str)
    (samples : List (Str × List (Str × Str)))
    (h : rootExists = true) :
    generate_project rootExists contest_id username dependencies template samples =
      ([], some (Error.Invalid (contest_id ++ " is already exists".toList))) := by
  subst h
  rfl

/-- Witness for claim C4, instantiated at contest id `abc100`. -/
theorem generate_project_refusal_witness :
    generate_project true "abc100".toList none [] []
        [("A".toList, [("1 2\n".toList, "3\n".toList)])] =
      ([], some (Error.Invalid ("abc100".toList ++ " is already exists".toList))) :=
  generate_project_refusal true "abc100".toList none [] []
    [("A".toList, [("1 2\n".toList, "3\n".toList)])] rfl

/-! ## Claim C5: dispatcher ordering and determinism -/

/-- Claim C5: the dispatcher declares one sub-module line and one match arm
per task slug, both emitted in ascending lexicographic order of the slugs,
and consequently `generate_main_rs` is invariant under permutation of its
input list. -/
theorem dispatcher_sorted_deterministic (l1 l2 : List Str) (h : l1.Perm l2) :
    generate_main_rs l1 = generate_main_rs l2 ∧
      List.Sorted StrLE (sortedTasks l1) ∧
      (sortedTasks l1).Perm l1 ∧
      (modLines (sortedTasks l1)).length = l1.length ∧
      (matchArms (sortedTasks l1)).length = l1.length := by
  have hsort : ∀ l : List Str, List.Sorted StrLE (sortedTasks l) :=
    fun l => List.sorted_insertionSort StrLE l
  have hperm : ∀ l : List Str, (sortedTasks l).Perm l :=
    fun l => List.perm_insertionSort StrLE l
  have heq : sortedTasks l1 = sortedTasks l2 :=
    List.eq_of_perm_of_sorted (((hperm l1).trans h).trans (hperm l2).symm)
      (hsort l1) (hsort l2)
  refine ⟨?_, hsort l1, hperm l1, ?_, ?_⟩
  · unfold generate_main_rs
    rw [heq]
  · simpa [modLines] using (hperm l1).length_eq
  · simpa [matchArms] using (hperm l1).length_eq

/-- Witness for claim C5: two orderings of the same two slugs produce the
same dispatcher, and the sorted slug list is sorted. -/
theorem dispatcher_sorted_deterministic_witness :
    generate_main_rs ["beta".toList, "alpha".toList] =
        generate_main_rs ["alpha".toList, "beta".toList] ∧
      List.Sorted StrLE (sortedTasks ["beta".toList, "alpha".toList]) ∧
      (sortedTasks ["beta".toList, "alpha".toList]).Perm
        ["beta".toList, "alpha".toList] ∧
      (modLines (sortedTasks ["beta".toList, "alpha".toList])).length = 2 ∧
      (matchArms (sortedTasks ["beta".toList, "alpha".toList])).length = 2 :=
  dispatcher_sorted_deterministic ["beta".toList, "alpha".toList]
    ["alpha".toList, "beta".toList]
    (List.Perm.swap "alpha".toList "beta".toList [])

/-! ## Claim C7 / C9: task index scraping -/

/-- Rows exhibiting both divergences from claim C7: the first row's first
`td` has no anchor while its second `td` does, and the second row's anchor
carries markup so that its inner HTML differs from its inner text. -/
def c7Rows : List Row :=
  [⟨[⟨[]⟩, ⟨[⟨"X".toList, "X".toList, some "/x".toList⟩]⟩]⟩,
   ⟨[⟨[⟨"A<b>!</b>".toList, "A!".toList, some "/a".toList⟩]⟩]⟩]

/-- Claim C7 counterexample: the code keeps the first row (taking the
anchor from its second `td`) and records the second anchor's inner HTML,
while the claimed behavior skips the first row and records inner text. -/
theorem scrape_differs_from_claimC7 :
    scrape_task_entries c7Rows =
        some [("X".toList, "/x".toList), ("A<b>!</b>".toList, "/a".toList)] ∧
      scrape_task_entries_claimC7 c7Rows = [("A!".toList, "/a".toList)] ∧
      scrape_task_entries c7Rows ≠ some (scrape_task_entries_claimC7 c7Rows) := by
  decide

/-- Claim C7 (amended): in each table-body row the scraper selects the
first `a` element under any `td` of the row in document order, takes its
inner HTML as the display name and its `href` attribute as the task URL
fragment, and skips rows with no such anchor (an anchor without `href`
panics, see claim C9). -/
theorem mapM_option_cons {α β : Type} (f : α → Option β) (a : α) (l : List α) :
    (a :: l).mapM f = (f a).bind (fun b => (l.mapM f).map (fun bs => b :: bs)) := by
  rw [List.mapM_cons]
  cases f a with
  | none => simp
  | some b =>
    cases h2 : l.mapM f with
    | none => simp [h2]
    | some bs => simp [h2]

theorem scrape_task_entries_doc_order (rows : List Row) :
    scrape_task_entries rows = scrape_amendedC7 rows ∧
      ∀ r : Row, row_anchor r = firstAnchorTds r.tds := by
  refine ⟨?_, row_anchor_eq_firstAnchorTds⟩
  induction rows with
  | nil => rfl
  | cons r rest ih =>
    have hb := row_anchor_eq_firstAnchorTds r
    cases hfa : firstAnchorTds r.tds with
    | none =>
      unfold scrape_task_entries at ih ⊢
      rw [List.filterMap_cons_none (hb.trans hfa)]
      simpa [scrape_amendedC7, hfa] using ih
    | some a =>
      unfold scrape_task_entries at ih ⊢
      rw [List.filterMap_cons_some (hb.trans hfa), mapM_option_cons]
      cases hh : a.href with
      | none => simp [scrape_amendedC7, hfa, hh]
      | some u =>
        simp only [hh, Option.map_some', Option.some_bind]
        rw [ih]
        simp [scrape_amendedC7, hfa, hh]

/-- A row whose matched anchor has no `href` attribute. -/
def c9Rows : List Row :=
  [⟨[⟨[⟨"Task T".toList, "Task T".toList, none⟩]⟩]⟩]

/-- Claim C9: a table row whose matched anchor lacks an `href` attribute is
not skipped; the `unwrap` on the attribute lookup fails, i.e. the error
branch of the embedding is reached (`none`). -/
theorem scrape_panics_without_href :
    row_anchor ⟨[⟨[⟨"Task T".toList, "Task T".toList, none⟩]⟩]⟩ =
        some ⟨"Task T".toList, "Task T".toList, none⟩ ∧
      scrape_task_entries c9Rows = none := by
  decide

/-! ## Claim C8: cookie round-trip -/

theorem toStrOk_imp_fromStrOk (c : Char) (h : toStrOk c = true) :
    fromStrOk c = true := by
  simp only [toStrOk, decide_eq_true_eq] at h
  simp only [fromStrOk, decide_eq_true_eq]
  omega

theorem toStrOk_ne_newline {c : Char} (h : toStrOk c = true) : c ≠ '\n' := by
  intro e
  subst e
  exact absurd h (by decide)

theorem toStrOk_ne_cr {c : Char} (h : toStrOk c = true) : c ≠ '\r' := by
  intro e
  subst e
  exact absurd h (by decide)

theorem linesAux_no_newline (v : Str) :
    ∀ (cur s : Str), (∀ c ∈ v, c ≠ '\n') →
      linesAux cur (v ++ s) = linesAux (v.reverse ++ cur) s := by
  induction v with
  | nil =>
    intro cur s _
    simp
  | cons c t ih =>
    intro cur s hv
    have hc : c ≠ '\n' := hv c (List.mem_cons_self c t)
    show linesAux cur (c :: (t ++ s)) = _
    rw [show linesAux cur (c :: (t ++ s)) =
      (if c = '\n' then stripCRrev cur :: linesAux [] (t ++ s)
       else linesAux (c :: cur) (t ++ s)) from rfl]
    rw [if_neg hc, ih (c :: cur) s (fun x hx => hv x (List.mem_cons_of_mem c hx))]
    simp

theorem intercalate_cons₂ {α : Type} (sep : List α) (a b : List α)
    (t : List (List α)) :
    List.intercalate sep (a :: b :: t) = a ++ sep ++ List.intercalate sep (b :: t) := by
  simp [List.intercalate, List.intersperse]

theorem stripCRrev_of_ne {c : Char} (t2 : Str) (hc : c ≠ '\r') :
    stripCRrev (c :: t2) = (c :: t2).reverse := by
  simp [stripCRrev, hc]

theorem linesAux_intercalate (jar : List Str)
    (h : ∀ v ∈ jar, v ≠ [] ∧ ∀ c ∈ v, toStrOk c = true) :
    linesAux [] (List.intercalate ['\n'] jar) = jar := by
  induction jar with
  | nil => rfl
  | cons v rest ih =>
    obtain ⟨hne, hok⟩ := h v (List.mem_cons_self v rest)
    have hnl : ∀ c ∈ v, c ≠ '\n' := fun c hc => toStrOk_ne_newline (hok c hc)
    cases rest with
    | nil =>
      have h1 : List.intercalate ['\n'] [v] = v ++ [] := by
        simp [List.intercalate, List.intersperse]
      rw [h1, linesAux_no_newline v [] [] hnl]
      simp [linesAux, hne]
    | cons w t =>
      rw [intercalate_cons₂, List.append_assoc, linesAux_no_newline v _ _ hnl,
        List.append_nil]
      obtain ⟨c, t2, hv⟩ : ∃ c t2, v.reverse = c :: t2 := by
        cases hvr : v.reverse with
        | nil => exact absurd (by simpa using hvr) hne
        | cons c t2 => exact ⟨c, t2, rfl⟩
      have hcmem : c ∈ v := by
        have : c ∈ v.reverse := by
          rw [hv]
          exact List.mem_cons_self c t2
        simpa using this
      have hcr : c ≠ '\r' := toStrOk_ne_cr (hok c hcmem)
      show linesAux v.reverse ('\n' :: List.intercalate ['\n'] (w :: t)) = _
      rw [show linesAux v.reverse ('\n' :: List.intercalate ['\n'] (w :: t)) =
        (if '\n' = '\n' then
          stripCRrev v.reverse :: linesAux [] (List.intercalate ['\n'] (w :: t))
         else linesAux ('\n' :: v.reverse) (List.intercalate ['\n'] (w :: t))) from rfl]
      rw [if_pos rfl, hv, stripCRrev_of_ne t2 hcr, ← hv]
      rw [List.reverse_reverse]
      rw [ih (fun u hu => h u (List.mem_cons_of_mem v hu))]

/-- Claim C8: saving a jar writes its cookie header values joined by
newlines, and loading the saved file yields the same jar (exactly, when
every value is non-blank and valid; blank or invalid values are the lines
the loader silently skips). -/
theorem cookie_round_trip (jar : List Str)
    (h : ∀ v ∈ jar, v ≠ [] ∧ ∀ c ∈ v, toStrOk c = true) :
    load_cookies (save_cookies jar) = jar ∧
      save_cookies jar = List.intercalate ['\n'] jar := by
  have hfilter : jar.filter (fun v => v.all toStrOk) = jar := by
    rw [List.filter_eq_self]
    intro v hv
    rw [List.all_eq_true]
    exact (h v hv).2
  have hsave : save_cookies jar = List.intercalate ['\n'] jar := by
    rw [save_cookies, hfilter]
  refine ⟨?_, hsave⟩
  rw [load_cookies, hsave, linesAux_intercalate jar h, List.filter_eq_self]
  intro v hv
  rw [List.all_eq_true]
  intro c hc
  exact toStrOk_imp_fromStrOk c ((h v hv).2 c hc)

/-- Witness for claim C8, at a concrete two-cookie jar. -/
theorem cookie_round_trip_witness :
    load_cookies (save_cookies ["REVEL_SESSION=abc".toList, "name=alice".toList]) =
        ["REVEL_SESSION=abc".toList, "name=alice".toList] ∧
      save_cookies ["REVEL_SESSION=abc".toList, "name=alice".toList] =
        List.intercalate ['\n'] ["REVEL_SESSION=abc".toList, "name=alice".toList] :=
  cookie_round_trip ["REVEL_SESSION=abc".toList, "name=alice".toList] (by decide)

/-! ## Claim C10: colliding slugs -/

/-- Claim C10: two display names differing only in letter case lower to the
same slug; the dispatcher then contains a duplicate module declaration and
a duplicate match arm for that slug, and both per-task writes target the
same file path. -/
theorem duplicate_slugs_collide :
    (["A".toList, "a".toList].map lowercase) = ["a".toList, "a".toList] ∧
      sortedTasks (["A".toList, "a".toList].map lowercase) =
        ["a".toList, "a".toList] ∧
      modLines (sortedTasks (["A".toList, "a".toList].map lowercase)) =
        ["mod a;\n".toList, "mod a;\n".toList] ∧
      matchArms (sortedTasks (["A".toList, "a".toList].map lowercase)) =
        ["        \x22a\x22 => a::main(),".toList,
         "        \x22a\x22 => a::main(),".toList] ∧
      List.isPrefixOf "mod a;\nmod a;\n".toList
        (generate_main_rs (["A".toList, "a".toList].map lowercase)) = true ∧
      taskFilePath "A".toList = taskFilePath "a".toList ∧
      ((generate_project false "abc".toList none [] []
          [("A".toList, []), ("a".toList, [])]).1.map FsWrite.path).count
        "abc/src/a.rs".toList = 2 := by
  decide
